import Mathlib

/-!
Verification of the EFI signature-database engine in `src/certdb.c`
(pesign's `pesigcheck` helpers).

The byte-level walker of `check_db` is embedded over `List Nat` regions
(each element one byte); 32-bit header fields are decoded little-endian at
the offsets of the packed `EFI_SIGNATURE_LIST` layout (type GUID at 0,
`SignatureListSize` at 16, `SignatureHeaderSize` at 20, `SignatureSize`
at 24; `EFI_SIGNATURE_DATA` holds a 16-byte owner GUID before the payload).
C unsigned arithmetic is modelled with explicit `% 2^32` / `% 2^64`;
a division by zero and a non-terminating loop are made observable through
dedicated result constructors and a fuel parameter.  External NSS calls are
modelled by boolean outcome oracles, since only the control flow of
`certdb.c` around them is under verification.
-/

namespace Certdb

/-- One byte of a region; out-of-range reads yield 0 and every byte is
reduced mod 256 so that decoded fields stay in their C ranges. -/
def byteAt (r : List Nat) (i : Nat) : Nat :=
  r.getD i 0 % 256

/-- Little-endian 32-bit read at `off`, as done by overlaying
`EFI_SIGNATURE_LIST` on the mapped bytes on a little-endian machine. -/
def readU32 (r : List Nat) (off : Nat) : Nat :=
  byteAt r off + byteAt r (off + 1) * 256 + byteAt r (off + 2) * 65536 +
    byteAt r (off + 3) * 16777216

/-- Little-endian encoding of a 32-bit field. -/
def u32le (n : Nat) : List Nat :=
  [n % 256, n / 256 % 256, n / 65536 % 256, n / 16777216 % 256]

/-- sizeof(EFI_SIGNATURE_LIST) = 16 (GUID) + 3 * 4 (UINT32 fields). -/
def sizeofSigList : Nat := 28

/-- sizeof(efi_guid_t). -/
def sizeofGuid : Nat := 16

/-- EFI_CERT_SHA256_GUID as its 16 little-endian bytes (efivar headers). -/
def efi_guid_sha256 : List Nat :=
  [0x26, 0x16, 0xc4, 0xc1, 0x4c, 0x50, 0x92, 0x40,
   0xac, 0xa9, 0x41, 0xf9, 0x36, 0x93, 0x43, 0x28]

/-- EFI_CERT_SHA1_GUID as its 16 little-endian bytes (efivar headers). -/
def efi_guid_sha1 : List Nat :=
  [0x12, 0xa5, 0x6c, 0x82, 0x10, 0xcf, 0xc9, 0x4a,
   0xb1, 0x87, 0xbe, 0x01, 0x49, 0x62, 0x10, 0x89]

/-- EFI_CERT_X509_GUID as its 16 little-endian bytes (efivar headers). -/
def efi_guid_x509 : List Nat :=
  [0xa1, 0x59, 0xc0, 0xa5, 0xe4, 0x94, 0xa7, 0x4a,
   0x87, 0xb5, 0xab, 0x15, 0x5c, 0x2b, 0xf0, 0x72]

/-- db_status from pesigcheck.h, as consumed by check_db. -/
inductive db_status where
  | FOUND
  | NOT_FOUND
deriving DecidableEq

/-- The triple handed to a check function for one signature entry:
`sig.data` (a pointer into the region, modelled as the byte suffix),
`sig.len = SignatureSize - sizeof(efi_guid_t)` and the group's SignatureType. -/
structure SigEntry where
  sigType : List Nat
  data : List Nat
  len : Nat
deriving DecidableEq

/-- sig.len as computed by `certlist->SignatureSize - sizeof(efi_guid_t)`:
the UINT32 is promoted to 64-bit unsigned, subtracted, then stored into the
32-bit `SECItem.len` field. -/
def cSubLen (entSize : Nat) : Nat :=
  (entSize + 2 ^ 64 - sizeofGuid) % 2 ^ 64 % 2 ^ 32

/-- The three UINT32 header fields of the group at `off`, plus the offset. -/
structure GroupView where
  off : Nat
  listSize : Nat
  headerSize : Nat
  entSize : Nat
deriving DecidableEq

/-- Decode the group header the code overlays at `off`. -/
def groupFields (r : List Nat) (off : Nat) : GroupView :=
  ⟨off, readU32 r (off + 16), readU32 r (off + 20), readU32 r (off + 24)⟩

/-- certcount = `(SignatureListSize - SignatureHeaderSize) / SignatureSize`,
with the C unsigned-32 subtraction made explicit. -/
def groupCount (g : GroupView) : Nat :=
  (g.listSize + 2 ^ 32 - g.headerSize) % 2 ^ 32 / g.entSize

/-- Entry `i` of a group: the first entry sits at
`certlist + sizeof(EFI_SIGNATURE_LIST) + SignatureHeaderSize` and the cursor
advances by `SignatureSize`; the payload starts after the 16-byte owner GUID. -/
def entryAt (r : List Nat) (t : List Nat) (entSize base i : Nat) : SigEntry :=
  ⟨t, r.drop (base + i * entSize + sizeofGuid), cSubLen entSize⟩

/-- All entries the inner for-loop visits in one group, in order. -/
def groupEntries (r : List Nat) (g : GroupView) : List SigEntry :=
  (List.range (groupCount g)).map
    (entryAt r ((r.drop g.off).take sizeofGuid) g.entSize
      (g.off + sizeofSigList + g.headerSize))

/-- Outcome of running check_db's region loop on one source.
`divByZero` marks the C division by zero when `SignatureSize == 0`;
`outOfFuel` marks a loop iteration budget exhausted without the loop
condition turning false (the code itself has no such bound). -/
inductive WalkResult where
  | ok (entries : List SigEntry)
  | divByZero
  | outOfFuel
deriving DecidableEq

/-- The walk performed by check_db's middle loop (certdb.c:226-254), with
the per-entry predicate stripped out: it visits groups while
`dbsize > 0 && dbsize >= certlist->SignatureListSize`, computes certcount by
the division above, collects the entries, then advances by
`SignatureListSize`. -/
def walkFrom (r : List Nat) : Nat → Nat → Nat → WalkResult
  | 0, off, dbsize =>
    if 0 < dbsize ∧ (groupFields r off).listSize ≤ dbsize then .outOfFuel
    else .ok []
  | fuel + 1, off, dbsize =>
    if 0 < dbsize ∧ (groupFields r off).listSize ≤ dbsize then
      if (groupFields r off).entSize = 0 then .divByZero
      else
        match walkFrom r fuel (off + (groupFields r off).listSize)
            (dbsize - (groupFields r off).listSize) with
        | .ok rest => .ok (groupEntries r (groupFields r off) ++ rest)
        | other => other
    else .ok []

/-- Entry list of a completed walk. -/
def entriesOf : WalkResult → List SigEntry
  | .ok es => es
  | _ => []

/-- Well-formedness of a region from `off` with `dbsize` bytes remaining,
relative to the group headers `gs` it claims to contain: every group really
is the header decoded at its offset, fits in the remaining bytes, has
`entry_size > 0`, `header-skip ≤ total size` and a total size at least the
28-byte header, and after the last group the loop condition is false (all
bytes consumed, or the trailing bytes declare a size larger than what
remains). -/
def wfFrom (r : List Nat) : List GroupView → Nat → Nat → Bool
  | [], off, dbsize =>
    !(decide (0 < dbsize) && decide ((groupFields r off).listSize ≤ dbsize))
  | g :: gs, off, dbsize =>
    decide (g = groupFields r off) && decide (0 < dbsize) &&
      decide (g.listSize ≤ dbsize) && decide (sizeofSigList ≤ g.listSize) &&
      decide (0 < g.entSize) && decide (g.headerSize ≤ g.listSize) &&
      wfFrom r gs (off + g.listSize) (dbsize - g.listSize)

/-- Outcome of check_db: FOUND with the matching sig copied to `match`,
NOT_FOUND after exhausting everything, or one of the two abnormal
behaviours of the unvalidated loop. -/
inductive DbRes where
  | found (e : SigEntry)
  | notFound
  | divByZero
  | outOfFuel
deriving DecidableEq

/-- The inner for-loop of check_db (certdb.c:234-249): visit `n` entries
from `base`, advancing by `SignatureSize`, and return the first entry the
check function reports FOUND. -/
def checkLoop (check : SigEntry → db_status) (r t : List Nat) (entSize : Nat) :
    Nat → Nat → Option SigEntry
  | _, 0 => none
  | base, n + 1 =>
    if check (entryAt r t entSize base 0) = .FOUND then
      some (entryAt r t entSize base 0)
    else checkLoop check r t entSize (base + entSize) n

/-- The middle loop of check_db over one source's region, with the
predicate interleaved exactly as in the C code (return FOUND from inside
the entry loop, otherwise advance to the next group). -/
def check_dbRegion (check : SigEntry → db_status) (r : List Nat) :
    Nat → Nat → Nat → DbRes
  | 0, off, dbsize =>
    if 0 < dbsize ∧ (groupFields r off).listSize ≤ dbsize then .outOfFuel
    else .notFound
  | fuel + 1, off, dbsize =>
    if 0 < dbsize ∧ (groupFields r off).listSize ≤ dbsize then
      if (groupFields r off).entSize = 0 then .divByZero
      else
        match checkLoop check r ((r.drop off).take sizeofGuid)
            (groupFields r off).entSize
            (off + sizeofSigList + (groupFields r off).headerSize)
            (groupCount (groupFields r off)) with
        | some e => .found e
        | none =>
          check_dbRegion check r fuel (off + (groupFields r off).listSize)
            (dbsize - (groupFields r off).listSize)
    else .notFound

/-- The two source chains of a pesigcheck_context (`ctx->db`, `ctx->dbx`). -/
structure dblists (α : Type) where
  db : List α
  dbx : List α
deriving DecidableEq

/-- db_specifier from pesigcheck.h. -/
inductive db_specifier where
  | DB
  | DBX
deriving DecidableEq

/-- Chain selection `which == DB ? ctx->db : ctx->dbx`. -/
def chainOf : db_specifier → dblists α → List α
  | .DB, c => c.db
  | .DBX, c => c.dbx

/-- Linking of a freshly loaded source (certdb.c:121-124):
`db->next = *tmp; *tmp = db`, i.e. the new source becomes the chain head. -/
def linkSource : db_specifier → α → dblists α → dblists α
  | .DB, s, c => ⟨s :: c.db, c.dbx⟩
  | .DBX, s, c => ⟨c.db, s :: c.dbx⟩

/-- The outer while-loop of check_db over the selected chain
(`dbl = dbl->next` on NOT_FOUND, immediate return otherwise). -/
def check_dbChain (check : SigEntry → db_status) : List (List Nat) → DbRes
  | [] => .notFound
  | r :: rest =>
    match check_dbRegion check r (r.length + 1) 0 r.length with
    | .notFound => check_dbChain check rest
    | other => other

/-- check_db (certdb.c:203-258), abstracted over the check function and
with the pkcs7 signature folded into the check closure. -/
def check_db (which : db_specifier) (check : SigEntry → db_status)
    (ctx : dblists (List Nat)) : DbRes :=
  check_dbChain check (chainOf which ctx)

/-- All entries of a source's usable region as seen by a complete walk. -/
def regionEntries (r : List Nat) : List SigEntry :=
  entriesOf (walkFrom r (r.length + 1) 0 r.length)

/-- The two pre-computed PE digests held in the cms context
(`digests[0]` is the SHA-256 digest, `digests[1]` the SHA-1 digest). -/
structure DigestCtx where
  sha256 : List Nat
  sha1 : List Nat
deriving DecidableEq

/-- check_hash (certdb.c:260-279): compare the first 32 payload bytes with
the SHA-256 digest when the type tag is the SHA-256 GUID, the first 20
bytes with the SHA-1 digest when it is the SHA-1 GUID, and ignore every
other tag. -/
def check_hash (ctx : DigestCtx) (e : SigEntry) : db_status :=
  if e.sigType = efi_guid_sha256 then
    if e.data.take 32 = ctx.sha256.take 32 then .FOUND else .NOT_FOUND
  else if e.sigType = efi_guid_sha1 then
    if e.data.take 20 = ctx.sha1.take 20 then .FOUND else .NOT_FOUND
  else .NOT_FOUND

/-- A 28-byte region whose single group header declares
`SignatureSize == 0` (total size 28, header-skip 0). -/
def regEntZero : List Nat :=
  efi_guid_sha256 ++ u32le 28 ++ u32le 0 ++ u32le 0

/-- A 28-byte region whose single group header declares
`SignatureListSize == 0` with `SignatureSize == 1`. -/
def regListZero : List Nat :=
  efi_guid_sha256 ++ u32le 0 ++ u32le 0 ++ u32le 1

/-- Concrete well-formed one-group region used as a walking witness:
SHA-256 type tag, total size 48, header-skip 0, entry size 20, followed by
20 bytes (one 16-byte owner GUID and 4 payload bytes). -/
def regC2 : List Nat :=
  efi_guid_sha256 ++ u32le 48 ++ u32le 0 ++ u32le 20 ++
    (List.replicate 16 1 ++ [2, 3, 4, 5])

/-- PRTime upper bound 0x7fffffffffffffff used as "+infinity". -/
def prTimeMax : Int := 0x7fffffffffffffff

/-- The loop of find_cert_times (certdb.c:324-331): fold every imported
certificate's (notBefore, notAfter) into the window by raising the lower
bound and lowering the upper bound. -/
def foldCertTimes (cs : List (Int × Int)) (w : Int × Int) : Int × Int :=
  cs.foldl
    (fun p c =>
      (if p.1 < c.1 then c.1 else p.1, if p.2 > c.2 then c.2 else p.2)) w

/-- find_cert_times (certdb.c:287-334): `none` stands for its error exits
(content not signed-data, no certificate database, import failure), which
reset the in-out window to `[0, prTimeMax]`; otherwise the embedded
certificates' validity pairs are folded into the caller's window. -/
def find_cert_times (certs : Option (List (Int × Int))) (nB nA : Int) :
    Int × Int :=
  match certs with
  | none => (0, prTimeMax)
  | some cs => foldCertTimes cs (nB, nA)

/-- The time-relevant content of a decoded pkcs7 signature: the embedded
certificates' validity pairs (when the message decodes as signed-data and
is imported cleanly) and the signing-time attribute (when present and
decodable). -/
structure SigTimeInfo where
  certs : Option (List (Int × Int))
  signingTime : Option Int
deriving DecidableEq

/-- The validity-window computation of check_cert (certdb.c:351-381):
start from `[0, prTimeMax]`, intersect with find_cert_times' result, then
pull each bound toward the signing-time instant when one is beyond it. -/
def cert_window (ti : SigTimeInfo) : Int × Int :=
  let earlyNow : Int := 0
  let lateNow : Int := prTimeMax
  let nba := find_cert_times ti.certs earlyNow lateNow
  let e1 := if earlyNow < nba.1 then nba.1 else earlyNow
  let l1 := if lateNow > nba.2 then nba.2 else lateNow
  match ti.signingTime with
  | none => (e1, l1)
  | some t => (if e1 < t then t else e1, if l1 > t then t else l1)

/-- atTime = `earlyNow / 2 + lateNow / 2` (certdb.c:386), with C's signed
division truncating toward zero. -/
def eval_time (ti : SigTimeInfo) : Int :=
  Int.tdiv (cert_window ti).1 2 + Int.tdiv (cert_window ti).2 2

/-- Spec-side intersection of validity periods with a starting window. -/
def intersectTimes (cs : List (Int × Int)) (w : Int × Int) : Int × Int :=
  cs.foldl (fun p c => (max p.1 c.1, min p.2 c.2)) w

/-- Signature-time data exhibiting the midpoint discrepancy: one embedded
certificate valid on `[1, 3]`, no signing time. -/
def tiOdd : SigTimeInfo := ⟨some [(1, 3)], none⟩

/-- Success/failure outcomes of the NSS library calls made by check_cert,
in call order. -/
structure NssOracle where
  decode1Ok : Bool
  decode2Ok : Bool
  digestAllocOk : Bool
  oidOk : Bool
  digestCreateOk : Bool
  digestBeginOk : Bool
  digestOpOk : Bool
  digestFinalOk : Bool
  tempCertOk : Bool
  trustDecodeOk : Bool
  trustChangeOk : Bool
  verifyOk : Bool
deriving DecidableEq

/-- Outcome of one check_cert invocation: a db_status, or the undefined
behaviour of calling PK11_DigestBegin on a NULL digest context. -/
inductive CertResult where
  | res (s : db_status)
  | nullDeref
deriving DecidableEq

/-- check_cert's control flow (certdb.c:336-459): every failing library
call jumps to `out` with status NOT_FOUND — except that after
`pk11ctx = PK11_CreateDigestContext(...)` the code tests `ctx == NULL`
(the pesigcheck context, certdb.c:404) instead of `pk11ctx`, so a failed
digest-context creation falls through into `PK11_DigestBegin(pk11ctx)`
with a NULL pointer. -/
def check_cert (o : NssOracle) (ctxIsNull : Bool) (sigType : List Nat) :
    CertResult :=
  if sigType = efi_guid_x509 then
    if o.decode1Ok = false then .res .NOT_FOUND
    else if o.decode2Ok = false then .res .NOT_FOUND
    else if o.digestAllocOk = false then .res .NOT_FOUND
    else if o.oidOk = false then .res .NOT_FOUND
    else if ctxIsNull = true then .res .NOT_FOUND
    else if o.digestCreateOk = false then .nullDeref
    else if o.digestBeginOk = false then .res .NOT_FOUND
    else if o.digestOpOk = false then .res .NOT_FOUND
    else if o.digestFinalOk = false then .res .NOT_FOUND
    else if o.tempCertOk = false then .res .NOT_FOUND
    else if o.trustDecodeOk = false then .res .NOT_FOUND
    else if o.trustChangeOk = false then .res .NOT_FOUND
    else if o.verifyOk = false then .res .NOT_FOUND
    else .res .FOUND
  else .res .NOT_FOUND

/-- The all-successful oracle. -/
def allNssOk : NssOracle :=
  ⟨true, true, true, true, true, true, true, true, true, true, true, true⟩

/-- db_f_type from pesigcheck.h. -/
inductive db_f_type where
  | DB_FILE
  | DB_EFIVAR
  | DB_CERT
deriving DecidableEq

/-- The (offset, datalen) of the usable region that add_db_file's switch
(certdb.c:89-119) exposes for a raw buffer of `size` bytes: the whole
buffer for DB_FILE, `(buffer+4, size-4)` for DB_EFIVAR (with the size_t
subtraction wrapping mod 2^64 — there is no size check), and a fresh
region of `size + sizeof(EFI_SIGNATURE_LIST) + sizeof(efi_guid_t)` bytes
for DB_CERT. -/
def usable_region : db_f_type → Nat → Nat × Nat
  | .DB_FILE, size => (0, size)
  | .DB_EFIVAR, size => (4, (size + 2 ^ 64 - 4) % 2 ^ 64)
  | .DB_CERT, size => (0, size + sizeofSigList + sizeofGuid)

/-- The synthesized region built by add_db_file's DB_CERT arm
(certdb.c:99-116): a calloc'd buffer holding an EFI_SIGNATURE_LIST header
(X.509 type GUID, SignatureListSize = whole region,
SignatureHeaderSize = 0, SignatureSize = certificate size + GUID size),
a zeroed 16-byte owner GUID, then the raw certificate bytes. -/
def buildCertRegion (cert : List Nat) : List Nat :=
  efi_guid_x509 ++ u32le (cert.length + 44) ++ u32le 0 ++
    u32le (cert.length + 16) ++ List.replicate 16 0 ++ cert

/-- Outcome of one add_db_file call as observed by init_cert_db:
success, failure with errno ENOENT (path absent), or failure with any
other errno. -/
inductive LoadOutcome where
  | ok
  | enoent
  | fail
deriving DecidableEq

/-- The efivars path of the platform key database. -/
def DB_PATH : String :=
  "/sys/firmware/efi/efivars/db-d719b2cb-3d3a-4596-a3bc-dad00e67656f"

/-- The efivars path of the machine-owner key list. -/
def MOK_PATH : String :=
  "/sys/firmware/efi/efivars/MokListRT-605dab50-e046-4300-abb6-3dd810dd8b23"

/-- The efivars path of the platform revocation database. -/
def DBX_PATH : String :=
  "/sys/firmware/efi/efivars/dbx-d719b2cb-3d3a-4596-a3bc-dad00e67656f"

/-- The efivars path of the machine-owner revocation list. -/
def MOKX_PATH : String :=
  "/sys/firmware/efi/efivars/MokListXRT-605dab50-e046-4300-abb6-3dd810dd8b23"

/-- What init_cert_db leaves behind: the two chains (most recently added
source first), whether each empty-chain warning was printed, and the path
named in the fatal diagnostic if `exit(1)` was reached. -/
structure InitOutcome where
  dbChain : List String
  dbxChain : List String
  warnNoDb : Bool
  warnNoDbx : Bool
  fatal : Option String
deriving DecidableEq

/-- A successful load links the source at the chain head; a tolerated
ENOENT leaves the chain alone. -/
def applyLoad (path : String) (o : LoadOutcome) (chain : List String) :
    List String :=
  if o = .ok then path :: chain else chain

/-- init_cert_db (certdb.c:153-198): nothing when system databases are
disabled; otherwise load db then MokListRT into the allow chain, warn if
it is still empty, load dbx then MokListXRT into the deny chain, warn if
it is still empty; any load failure other than ENOENT prints the path and
exits immediately. -/
def init_cert_db (useSystem : Bool) (o1 o2 o3 o4 : LoadOutcome)
    (db0 dbx0 : List String) : InitOutcome :=
  if useSystem = false then ⟨db0, dbx0, false, false, none⟩
  else if o1 = .fail then ⟨db0, dbx0, false, false, some DB_PATH⟩
  else if o2 = .fail then
    ⟨applyLoad DB_PATH o1 db0, dbx0, false, false, some MOK_PATH⟩
  else if o3 = .fail then
    ⟨applyLoad MOK_PATH o2 (applyLoad DB_PATH o1 db0), dbx0,
      (applyLoad MOK_PATH o2 (applyLoad DB_PATH o1 db0)).isEmpty, false,
      some DBX_PATH⟩
  else if o4 = .fail then
    ⟨applyLoad MOK_PATH o2 (applyLoad DB_PATH o1 db0),
      applyLoad DBX_PATH o3 dbx0,
      (applyLoad MOK_PATH o2 (applyLoad DB_PATH o1 db0)).isEmpty, false,
      some MOKX_PATH⟩
  else
    ⟨applyLoad MOK_PATH o2 (applyLoad DB_PATH o1 db0),
      applyLoad MOKX_PATH o4 (applyLoad DBX_PATH o3 dbx0),
      (applyLoad MOK_PATH o2 (applyLoad DB_PATH o1 db0)).isEmpty,
      (applyLoad MOKX_PATH o4 (applyLoad DBX_PATH o3 dbx0)).isEmpty,
      none⟩

/-- Success/failure of every fallible step of add_db_file, in call order
(calloc of the dblist, open, strdup of the path copy, strdup of the
basename, fstat, mmap, the read_file fallback, and the DB_CERT calloc). -/
structure FsOracle where
  callocDbOk : Bool
  openOk : Bool
  strdupPathOk : Bool
  strdupBaseOk : Bool
  fstatOk : Bool
  mmapOk : Bool
  readOk : Bool
  callocDataOk : Bool
deriving DecidableEq

/-- Every fallible step of add_db_file succeeded (read_file only matters
when mmap failed, the data calloc only for DB_CERT). -/
def allStepsOk (o : FsOracle) (type : db_f_type) : Prop :=
  o.callocDbOk = true ∧ o.openOk = true ∧ o.strdupPathOk = true ∧
    o.strdupBaseOk = true ∧ o.fstatOk = true ∧
    (o.mmapOk = true ∨ o.readOk = true) ∧
    (type = .DB_CERT → o.callocDataOk = true)

/-- add_db_file (certdb.c:26-128) as a function from the outcomes of its
fallible steps to (return code, updated context): every failure path
returns -1 without touching the chains; only the final lines link the new
source into the requested chain. -/
def add_db_file (o : FsOracle) (which : db_specifier) (dbfile : String)
    (type : db_f_type) (ctx : dblists String) : Int × dblists String :=
  if o.callocDbOk = false then (-1, ctx)
  else if o.openOk = false then (-1, ctx)
  else if o.strdupPathOk = false then (-1, ctx)
  else if o.strdupBaseOk = false then (-1, ctx)
  else if o.fstatOk = false then (-1, ctx)
  else if o.mmapOk = false ∧ o.readOk = false then (-1, ctx)
  else if type = .DB_CERT ∧ o.callocDataOk = false then (-1, ctx)
  else (0, linkSource which dbfile ctx)

/-- Any little-endian 32-bit read is below 2^32. -/
theorem readU32_lt (r : List Nat) (off : Nat) : readU32 r off < 2 ^ 32 := by
  have h0 : r.getD off 0 % 256 < 256 := Nat.mod_lt _ (by norm_num)
  have h1 : r.getD (off + 1) 0 % 256 < 256 := Nat.mod_lt _ (by norm_num)
  have h2 : r.getD (off + 2) 0 % 256 < 256 := Nat.mod_lt _ (by norm_num)
  have h3 : r.getD (off + 3) 0 % 256 < 256 := Nat.mod_lt _ (by norm_num)
  unfold readU32 byteAt
  omega

/-- With `header-skip ≤ total size` (and the fields being genuine 32-bit
reads) the unsigned certcount computation is the plain quotient of the
claim. -/
theorem groupCount_eq (r : List Nat) (off : Nat)
    (h : (groupFields r off).headerSize ≤ (groupFields r off).listSize) :
    groupCount (groupFields r off) =
      ((groupFields r off).listSize - (groupFields r off).headerSize) /
        (groupFields r off).entSize := by
  have hl : (groupFields r off).listSize < 2 ^ 32 := readU32_lt r (off + 16)
  unfold groupCount
  congr 1
  omega

/-- A well-formed walk succeeds within `gs.length` fuel and yields exactly
the concatenation of the per-group entry runs, in order. -/
theorem walkFrom_wf (r : List Nat) (gs : List GroupView) :
    ∀ off dbsize fuel, wfFrom r gs off dbsize = true → gs.length ≤ fuel →
      walkFrom r fuel off dbsize = .ok (gs.flatMap (groupEntries r)) := by
  induction gs with
  | nil =>
    intro off dbsize fuel h _
    simp only [wfFrom, Bool.not_eq_true', Bool.and_eq_false_iff,
      decide_eq_false_iff_not] at h
    have hcond : ¬(0 < dbsize ∧ (groupFields r off).listSize ≤ dbsize) := by
      rcases h with h | h <;> tauto
    cases fuel with
    | zero => rw [walkFrom, if_neg hcond]; simp
    | succ f => rw [walkFrom, if_neg hcond]; simp
  | cons g gs ih =>
    intro off dbsize fuel h hf
    simp only [wfFrom, Bool.and_eq_true, decide_eq_true_eq, and_assoc] at h
    obtain ⟨hg, hpos, hle, hhdr, hent, hskip, hrec⟩ := h
    subst hg
    cases fuel with
    | zero => simp at hf
    | succ f =>
      rw [walkFrom, if_pos ⟨hpos, hle⟩, if_neg (by omega)]
      rw [ih _ _ f hrec (by simpa using hf)]
      simp [List.flatMap_cons]

/-- The bytes consumed by a well-formed walk (the sum of the declared group
total sizes) never exceed the remaining region length. -/
theorem wfFrom_sum_le (r : List Nat) (gs : List GroupView) :
    ∀ off dbsize, wfFrom r gs off dbsize = true →
      (gs.map GroupView.listSize).sum ≤ dbsize := by
  induction gs with
  | nil => intro off dbsize _; simp
  | cons g gs ih =>
    intro off dbsize h
    simp only [wfFrom, Bool.and_eq_true, decide_eq_true_eq, and_assoc] at h
    obtain ⟨hg, hpos, hle, hhdr, hent, hskip, hrec⟩ := h
    have := ih _ _ hrec
    simp only [List.map_cons, List.sum_cons]
    omega

/-- A well-formed region holds at most `dbsize` groups (each group occupies
at least one byte), so `dbsize` is always enough fuel. -/
theorem wfFrom_length_le (r : List Nat) (gs : List GroupView) :
    ∀ off dbsize, wfFrom r gs off dbsize = true → gs.length ≤ dbsize := by
  induction gs with
  | nil => intro off dbsize _; simp
  | cons g gs ih =>
    intro off dbsize h
    simp only [wfFrom, Bool.and_eq_true, decide_eq_true_eq, and_assoc] at h
    obtain ⟨hg, hpos, hle, hhdr, hent, hskip, hrec⟩ := h
    have := ih _ _ hrec
    have h28 : (28 : Nat) ≤ g.listSize := hhdr
    simp only [List.length_cons]
    omega

/-- The groups of a well-formed region satisfy `header-skip ≤ total size`
at their own offsets, so the claim's entry-count formula applies to each. -/
theorem wfFrom_counts (r : List Nat) (gs : List GroupView) :
    ∀ off dbsize, wfFrom r gs off dbsize = true →
      ∀ g ∈ gs, (groupEntries r g).length =
        (g.listSize - g.headerSize) / g.entSize := by
  induction gs with
  | nil => intro off dbsize _ g hg; simp at hg
  | cons g gs ih =>
    intro off dbsize h g' hg'
    simp only [wfFrom, Bool.and_eq_true, decide_eq_true_eq, and_assoc] at h
    obtain ⟨hg, hpos, hle, hhdr, hent, hskip, hrec⟩ := h
    rcases List.mem_cons.mp hg' with h' | h'
    · subst h'
      subst hg
      simp only [groupEntries, List.length_map, List.length_range]
      exact groupCount_eq r off hskip
    · exact ih _ _ hrec g' h'

/-- Advancing the entry cursor once shifts the entry index by one. -/
theorem entryAt_succ (r t : List Nat) (entSize base i : Nat) :
    entryAt r t entSize base (i + 1) = entryAt r t entSize (base + entSize) i := by
  unfold entryAt
  congr 2
  rw [Nat.succ_mul]
  omega

/-- The entry loop returns exactly the first FOUND entry of the group run,
in original byte order. -/
theorem checkLoop_eq_find (check : SigEntry → db_status) (r t : List Nat)
    (entSize : Nat) :
    ∀ n base, checkLoop check r t entSize base n =
      ((List.range n).map (entryAt r t entSize base)).find?
        (fun e => decide (check e = .FOUND)) := by
  intro n
  induction n with
  | zero => intro base; simp [checkLoop]
  | succ m ih =>
    intro base
    rw [List.range_succ_eq_map]
    simp only [List.map_cons, List.map_map]
    have hmap : (List.range m).map (entryAt r t entSize base ∘ Nat.succ) =
        (List.range m).map (entryAt r t entSize (base + entSize)) := by
      refine List.map_congr_left ?_
      intro i _
      simpa using entryAt_succ r t entSize base i
    rw [hmap]
    rw [checkLoop]
    by_cases h : check (entryAt r t entSize base 0) = .FOUND
    · rw [if_pos h, List.find?_cons_of_pos _ (by simpa using h)]
    · rw [if_neg h, List.find?_cons_of_neg _ (by simpa using h), ih]

/-- On a well-formed region the interleaved search agrees with searching
the flat walk output: it returns the first FOUND entry in byte order, and
NOT_FOUND exactly when no entry is FOUND. -/
theorem check_dbRegion_wf (check : SigEntry → db_status) (r : List Nat)
    (gs : List GroupView) :
    ∀ off dbsize fuel, wfFrom r gs off dbsize = true → gs.length ≤ fuel →
      check_dbRegion check r fuel off dbsize =
        (match (gs.flatMap (groupEntries r)).find?
            (fun e => decide (check e = .FOUND)) with
         | some e => .found e
         | none => .notFound) := by
  induction gs with
  | nil =>
    intro off dbsize fuel h _
    simp only [wfFrom, Bool.not_eq_true', Bool.and_eq_false_iff,
      decide_eq_false_iff_not] at h
    have hcond : ¬(0 < dbsize ∧ (groupFields r off).listSize ≤ dbsize) := by
      rcases h with h | h <;> tauto
    cases fuel with
    | zero => rw [check_dbRegion, if_neg hcond]; simp
    | succ f => rw [check_dbRegion, if_neg hcond]; simp
  | cons g gs ih =>
    intro off dbsize fuel h hf
    simp only [wfFrom, Bool.and_eq_true, decide_eq_true_eq, and_assoc] at h
    obtain ⟨hg, hpos, hle, hhdr, hent, hskip, hrec⟩ := h
    subst hg
    cases fuel with
    | zero => simp at hf
    | succ f =>
      rw [check_dbRegion, if_pos ⟨hpos, hle⟩, if_neg (by omega)]
      rw [checkLoop_eq_find]
      rw [show ((List.range (groupCount (groupFields r off))).map
            (entryAt r ((r.drop off).take sizeofGuid)
              (groupFields r off).entSize
              (off + sizeofSigList + (groupFields r off).headerSize))) =
          groupEntries r (groupFields r off) from rfl]
      rw [List.flatMap_cons, List.find?_append]
      cases hfind : (groupEntries r (groupFields r off)).find?
          (fun e => decide (check e = .FOUND)) with
      | some e => rfl
      | none =>
        rw [ih _ _ f hrec (by simpa using hf)]
        rfl

/-- On a chain of well-formed sources the outer loop returns the first
FOUND entry across sources in chain order, and NOT_FOUND exactly when the
chain is exhausted. -/
theorem check_dbChain_wf (check : SigEntry → db_status) :
    ∀ chain : List (List Nat),
      (∀ r ∈ chain, ∃ gs, wfFrom r gs 0 r.length = true) →
      check_dbChain check chain =
        (match (chain.flatMap regionEntries).find?
            (fun e => decide (check e = .FOUND)) with
         | some e => .found e
         | none => .notFound) := by
  intro chain
  induction chain with
  | nil => intro _; simp [check_dbChain]
  | cons r rest ih =>
    intro h
    obtain ⟨gs, hgs⟩ := h r (by simp)
    have hlen : gs.length ≤ r.length := wfFrom_length_le r gs 0 r.length hgs
    have hreg : regionEntries r = gs.flatMap (groupEntries r) := by
      unfold regionEntries
      rw [walkFrom_wf r gs 0 r.length (r.length + 1) hgs (by omega)]
      rfl
    rw [check_dbChain]
    rw [check_dbRegion_wf check r gs 0 r.length (r.length + 1) hgs (by omega)]
    rw [List.flatMap_cons, List.find?_append, hreg]
    cases hfind : (gs.flatMap (groupEntries r)).find?
        (fun e => decide (check e = .FOUND)) with
    | some e => rfl
    | none =>
      rw [ih (fun r' hr' => h r' (by simp [hr']))]
      rfl

/-- C1: check_db's inner loop has no malformed-source outcome at all: a
group header with `entry_size == 0` drives it straight into the division
`(SignatureListSize - SignatureHeaderSize) / SignatureSize` with a zero
divisor, and a header with `total_size == 0` (smaller than the 28-byte
header) keeps the loop on the same group forever, for every iteration
budget. -/
theorem C1_walker_no_parse_failure :
    walkFrom regEntZero 1 0 regEntZero.length = .divByZero ∧
    ∀ fuel, walkFrom regListZero fuel 0 regListZero.length = .outOfFuel := by
  refine ⟨by decide, ?_⟩
  have hlen : regListZero.length = 28 := by decide
  intro fuel
  rw [hlen]
  induction fuel with
  | zero => decide
  | succ f ihf =>
    rw [walkFrom, if_pos (by decide), if_neg (by decide)]
    rw [show (groupFields regListZero 0).listSize = 0 from by decide]
    simp only [Nat.add_zero, Nat.zero_add, Nat.sub_zero]
    rw [ihf]

/-- C2: on a well-formed region the walk succeeds, yields per group exactly
`(total_size - header_skip) / entry_size` entries in original byte order
(group after group), and the consumed group total sizes sum to at most the
usable region length. -/
theorem C2_walker_wellformed (r : List Nat) (gs : List GroupView) (fuel : Nat)
    (h : wfFrom r gs 0 r.length = true) (hf : gs.length ≤ fuel) :
    walkFrom r fuel 0 r.length = .ok (gs.flatMap (groupEntries r)) ∧
    (gs.map GroupView.listSize).sum ≤ r.length ∧
    ∀ g ∈ gs, (groupEntries r g).length =
      (g.listSize - g.headerSize) / g.entSize :=
  ⟨walkFrom_wf r gs 0 r.length fuel h hf,
   wfFrom_sum_le r gs 0 r.length h,
   wfFrom_counts r gs 0 r.length h⟩

/-- Witness: C2 applied to the concrete region `regC2`. -/
theorem C2_walker_wellformed_witness :
    (wfFrom regC2 [⟨0, 48, 0, 20⟩] 0 regC2.length = true ∧
      ([(⟨0, 48, 0, 20⟩ : GroupView)]).length ≤ 1) ∧
    (walkFrom regC2 1 0 regC2.length =
        .ok (([(⟨0, 48, 0, 20⟩ : GroupView)]).flatMap (groupEntries regC2)) ∧
      (([(⟨0, 48, 0, 20⟩ : GroupView)]).map GroupView.listSize).sum ≤
        regC2.length ∧
      ∀ g ∈ [(⟨0, 48, 0, 20⟩ : GroupView)], (groupEntries regC2 g).length =
        (g.listSize - g.headerSize) / g.entSize) :=
  ⟨⟨by decide, by decide⟩,
   C2_walker_wellformed regC2 [⟨0, 48, 0, 20⟩] 1 (by decide) (by decide)⟩

/-- C3: check_db walks the selected chain in chain order, each source's
entries in byte order, returns Found with the first entry the predicate
accepts and NotFound exactly when everything was exhausted; and
add_db_file's linking puts each new source at the head of its chain. -/
theorem C3_search_order (which : db_specifier) (check : SigEntry → db_status)
    (ctx : dblists (List Nat))
    (h : ∀ r ∈ chainOf which ctx, ∃ gs, wfFrom r gs 0 r.length = true) :
    check_db which check ctx =
      (match ((chainOf which ctx).flatMap regionEntries).find?
          (fun e => decide (check e = .FOUND)) with
       | some e => .found e
       | none => .notFound) ∧
    ∀ (s : List Nat) (c : dblists (List Nat)),
      chainOf which (linkSource which s c) = s :: chainOf which c := by
  refine ⟨check_dbChain_wf check (chainOf which ctx) h, ?_⟩
  intro s c
  cases which <;> rfl

/-- Witness: C3 applied to a one-source allow chain holding `regC2` and a
hash predicate whose digests match nothing in the region. -/
theorem C3_search_order_witness :
    check_db .DB (check_hash ⟨List.replicate 32 5, List.replicate 20 6⟩)
        ⟨[regC2], []⟩ =
      (match ((chainOf .DB ⟨[regC2], []⟩).flatMap regionEntries).find?
          (fun e => decide
            (check_hash ⟨List.replicate 32 5, List.replicate 20 6⟩ e =
              .FOUND)) with
       | some e => .found e
       | none => .notFound) ∧
    ∀ (s : List Nat) (c : dblists (List Nat)),
      chainOf .DB (linkSource .DB s c) = s :: chainOf .DB c :=
  C3_search_order .DB (check_hash ⟨List.replicate 32 5, List.replicate 20 6⟩)
    ⟨[regC2], []⟩
    (by
      intro r hr
      simp only [chainOf, List.mem_singleton] at hr
      subst hr
      exact ⟨[⟨0, 48, 0, 20⟩], by decide⟩)

/-- C4: check_hash answers FOUND exactly on a SHA-256-tagged entry whose
first 32 payload bytes equal the SHA-256 digest or a SHA-1-tagged entry
whose first 20 payload bytes equal the SHA-1 digest; all other tags give
NOT_FOUND. -/
theorem C4_check_hash (ctx : DigestCtx) (e : SigEntry)
    (h256 : ctx.sha256.length = 32) (h1 : ctx.sha1.length = 20) :
    check_hash ctx e = .FOUND ↔
      (e.sigType = efi_guid_sha256 ∧ e.data.take 32 = ctx.sha256) ∨
      (e.sigType = efi_guid_sha1 ∧ e.data.take 20 = ctx.sha1) := by
  have ht256 : ctx.sha256.take 32 = ctx.sha256 := by
    rw [← h256, List.take_length]
  have ht1 : ctx.sha1.take 20 = ctx.sha1 := by
    rw [← h1, List.take_length]
  have hne : efi_guid_sha256 ≠ efi_guid_sha1 := by decide
  unfold check_hash
  rw [ht256, ht1]
  split_ifs with hA hB hC hD <;> simp_all

/-- Witness: C4 applied to a matching SHA-256 entry. -/
theorem C4_check_hash_witness :
    ((List.replicate 32 7 : List Nat).length = 32 ∧
      (List.replicate 20 9 : List Nat).length = 20) ∧
    (check_hash ⟨List.replicate 32 7, List.replicate 20 9⟩
        ⟨efi_guid_sha256, List.replicate 32 7, 32⟩ = .FOUND ↔
      ((efi_guid_sha256 = efi_guid_sha256 ∧
        (List.replicate 32 7 : List Nat).take 32 = List.replicate 32 7) ∨
       (efi_guid_sha256 = efi_guid_sha1 ∧
        (List.replicate 32 7 : List Nat).take 20 = List.replicate 20 9))) :=
  ⟨⟨by decide, by decide⟩,
   C4_check_hash ⟨List.replicate 32 7, List.replicate 20 9⟩
     ⟨efi_guid_sha256, List.replicate 32 7, 32⟩ (by decide) (by decide)⟩

/-- The C-style conditional updates are exactly max/min folding. -/
theorem foldCertTimes_eq_intersect (cs : List (Int × Int)) :
    ∀ w, foldCertTimes cs w = intersectTimes cs w := by
  induction cs with
  | nil => intro w; rfl
  | cons c cs ih =>
    intro w
    rw [foldCertTimes, intersectTimes, List.foldl_cons, List.foldl_cons]
    rw [show ((if w.1 < c.1 then c.1 else w.1 : Int),
          (if w.2 > c.2 then c.2 else w.2 : Int)) = (max w.1 c.1, min w.2 c.2) by
        simp only [Prod.mk.injEq]
        refine ⟨?_, ?_⟩
        · rw [max_def]; split_ifs <;> omega
        · rw [min_def]; split_ifs <;> omega]
    exact ih (max w.1 c.1, min w.2 c.2)

/-- Intersecting never lowers the window's lower bound. -/
theorem intersect_fst_ge (cs : List (Int × Int)) :
    ∀ w : Int × Int, w.1 ≤ (intersectTimes cs w).1 := by
  induction cs with
  | nil => intro w; exact le_refl _
  | cons c cs ih =>
    intro w
    rw [intersectTimes, List.foldl_cons]
    exact le_trans (le_max_left w.1 c.1) (ih (max w.1 c.1, min w.2 c.2))

/-- Intersecting never raises the window's upper bound. -/
theorem intersect_snd_le (cs : List (Int × Int)) :
    ∀ w : Int × Int, (intersectTimes cs w).2 ≤ w.2 := by
  induction cs with
  | nil => intro w; exact le_refl _
  | cons c cs ih =>
    intro w
    rw [intersectTimes, List.foldl_cons]
    exact le_trans (ih (max w.1 c.1, min w.2 c.2)) (min_le_left w.2 c.2)

/-- cert_window with no signing time, unfolded. -/
theorem cert_window_none (certs : Option (List (Int × Int))) :
    cert_window ⟨certs, none⟩ =
      (if 0 < (find_cert_times certs 0 prTimeMax).1 then
         (find_cert_times certs 0 prTimeMax).1 else 0,
       if prTimeMax > (find_cert_times certs 0 prTimeMax).2 then
         (find_cert_times certs 0 prTimeMax).2 else prTimeMax) := rfl

/-- cert_window with a signing time clamps the no-signing-time window. -/
theorem cert_window_some (certs : Option (List (Int × Int))) (t : Int) :
    cert_window ⟨certs, some t⟩ =
      (if (cert_window ⟨certs, none⟩).1 < t then t
         else (cert_window ⟨certs, none⟩).1,
       if (cert_window ⟨certs, none⟩).2 > t then t
         else (cert_window ⟨certs, none⟩).2) := rfl

/-- C5 (amended): the validity window starts as `[0, prTimeMax]`, is
narrowed to the intersection of the embedded certificates' validity
periods, both bounds are pulled to the signing-time instant — the window
collapses to exactly that instant iff it lay within the running window —
and the evaluation time is `earlyNow/2 + lateNow/2`, which equals the
arithmetic midpoint whenever both bounds are even. -/
theorem C5_time_window (ti : SigTimeInfo) :
    (ti.certs = none → ti.signingTime = none →
      cert_window ti = (0, prTimeMax)) ∧
    (∀ cs, ti.certs = some cs → ti.signingTime = none →
      cert_window ti = intersectTimes cs (0, prTimeMax)) ∧
    (∀ t, ti.signingTime = some t →
      cert_window ti =
        (max (cert_window ⟨ti.certs, none⟩).1 t,
         min (cert_window ⟨ti.certs, none⟩).2 t) ∧
      (cert_window ti = (t, t) ↔
        (cert_window ⟨ti.certs, none⟩).1 ≤ t ∧
          t ≤ (cert_window ⟨ti.certs, none⟩).2)) ∧
    (2 ∣ (cert_window ti).1 → 2 ∣ (cert_window ti).2 →
      2 * eval_time ti = (cert_window ti).1 + (cert_window ti).2) := by
  obtain ⟨certs, st⟩ := ti
  refine ⟨?_, ?_, ?_, ?_⟩
  · rintro rfl rfl
    decide
  · rintro cs rfl rfl
    rw [cert_window_none]
    have h1 : (0 : Int) ≤ (intersectTimes cs (0, prTimeMax)).1 :=
      intersect_fst_ge cs (0, prTimeMax)
    have h2 : (intersectTimes cs (0, prTimeMax)).2 ≤ prTimeMax :=
      intersect_snd_le cs (0, prTimeMax)
    rw [show find_cert_times (some cs) 0 prTimeMax =
        intersectTimes cs (0, prTimeMax) from foldCertTimes_eq_intersect cs _]
    rw [Prod.ext_iff]
    dsimp only
    constructor
    · split_ifs <;> omega
    · split_ifs <;> omega
  · rintro t rfl
    rw [cert_window_some]
    constructor
    · simp only [Prod.mk.injEq]
      constructor
      · rw [max_def]; split_ifs <;> omega
      · rw [min_def]; split_ifs <;> omega
    · simp only [Prod.mk.injEq]
      split_ifs <;> omega
  · intro he hl
    obtain ⟨k, hk⟩ := he
    obtain ⟨m, hm⟩ := hl
    unfold eval_time
    rw [hk, hm, Int.mul_tdiv_cancel_left k (by norm_num),
      Int.mul_tdiv_cancel_left m (by norm_num)]
    ring

/-- Witness: C5 applied to the concrete signature-time data
`certs = [(2, 8)]`, no signing time. -/
theorem C5_time_window_witness :
    ((⟨some [((2 : Int), (8 : Int))], none⟩ : SigTimeInfo).certs = none →
      (⟨some [((2 : Int), (8 : Int))], none⟩ : SigTimeInfo).signingTime = none →
      cert_window ⟨some [(2, 8)], none⟩ = (0, prTimeMax)) ∧
    (∀ cs, (⟨some [((2 : Int), (8 : Int))], none⟩ : SigTimeInfo).certs = some cs →
      (⟨some [((2 : Int), (8 : Int))], none⟩ : SigTimeInfo).signingTime = none →
      cert_window ⟨some [(2, 8)], none⟩ = intersectTimes cs (0, prTimeMax)) ∧
    (∀ t, (⟨some [((2 : Int), (8 : Int))], none⟩ : SigTimeInfo).signingTime = some t →
      cert_window ⟨some [(2, 8)], none⟩ =
        (max (cert_window ⟨(⟨some [((2 : Int), (8 : Int))], none⟩ : SigTimeInfo).certs, none⟩).1 t,
         min (cert_window ⟨(⟨some [((2 : Int), (8 : Int))], none⟩ : SigTimeInfo).certs, none⟩).2 t) ∧
      (cert_window ⟨some [(2, 8)], none⟩ = (t, t) ↔
        (cert_window ⟨(⟨some [((2 : Int), (8 : Int))], none⟩ : SigTimeInfo).certs, none⟩).1 ≤ t ∧
          t ≤ (cert_window ⟨(⟨some [((2 : Int), (8 : Int))], none⟩ : SigTimeInfo).certs, none⟩).2)) ∧
    (2 ∣ (cert_window ⟨some [(2, 8)], none⟩).1 →
      2 ∣ (cert_window ⟨some [(2, 8)], none⟩).2 →
      2 * eval_time ⟨some [(2, 8)], none⟩ =
        (cert_window ⟨some [(2, 8)], none⟩).1 +
          (cert_window ⟨some [(2, 8)], none⟩).2) :=
  C5_time_window ⟨some [(2, 8)], none⟩

/-- C5 counterexample: for the final window `[1, 3]` the code's evaluation
time is `1/2 + 3/2 = 1`, but the arithmetic midpoint of the window is 2. -/
theorem C5_not_arithmetic_midpoint :
    cert_window tiOdd = (1, 3) ∧ eval_time tiOdd = 1 ∧
    ((1 : Int) + 3) / 2 = 2 ∧
    eval_time tiOdd ≠
      ((cert_window tiOdd).1 + (cert_window tiOdd).2) / 2 := by
  refine ⟨by decide, by decide, by decide, by decide⟩

/-- C6: a non-X.509 tag is NOT_FOUND immediately and verification success
is the only way to FOUND — but a digest-context creation failure is not
turned into NOT_FOUND: because certdb.c:404 tests `ctx` instead of
`pk11ctx`, check_cert dereferences the NULL digest context instead. -/
theorem C6_check_cert_paths :
    (∀ o b t, ¬t = efi_guid_x509 → check_cert o b t = .res .NOT_FOUND) ∧
    (∀ o b t, check_cert o b t = .res .FOUND → o.verifyOk = true) ∧
    check_cert
        ⟨true, true, true, true, false, true, true, true, true, true, true,
          true⟩ false efi_guid_x509 = .nullDeref := by
  refine ⟨?_, ?_, by decide⟩
  · intro o b t ht
    rw [check_cert, if_neg ht]
  · intro o b t h
    unfold check_cert at h
    by_cases c0 : t = efi_guid_x509
    case neg => rw [if_neg c0] at h; exact absurd h (by decide)
    rw [if_pos c0] at h
    by_cases c1 : o.decode1Ok = false
    · rw [if_pos c1] at h; exact absurd h (by decide)
    rw [if_neg c1] at h
    by_cases c2 : o.decode2Ok = false
    · rw [if_pos c2] at h; exact absurd h (by decide)
    rw [if_neg c2] at h
    by_cases c3 : o.digestAllocOk = false
    · rw [if_pos c3] at h; exact absurd h (by decide)
    rw [if_neg c3] at h
    by_cases c4 : o.oidOk = false
    · rw [if_pos c4] at h; exact absurd h (by decide)
    rw [if_neg c4] at h
    by_cases c5 : b = true
    · rw [if_pos c5] at h; exact absurd h (by decide)
    rw [if_neg c5] at h
    by_cases c6 : o.digestCreateOk = false
    · rw [if_pos c6] at h; exact absurd h (by decide)
    rw [if_neg c6] at h
    by_cases c7 : o.digestBeginOk = false
    · rw [if_pos c7] at h; exact absurd h (by decide)
    rw [if_neg c7] at h
    by_cases c8 : o.digestOpOk = false
    · rw [if_pos c8] at h; exact absurd h (by decide)
    rw [if_neg c8] at h
    by_cases c9 : o.digestFinalOk = false
    · rw [if_pos c9] at h; exact absurd h (by decide)
    rw [if_neg c9] at h
    by_cases c10 : o.tempCertOk = false
    · rw [if_pos c10] at h; exact absurd h (by decide)
    rw [if_neg c10] at h
    by_cases c11 : o.trustDecodeOk = false
    · rw [if_pos c11] at h; exact absurd h (by decide)
    rw [if_neg c11] at h
    by_cases c12 : o.trustChangeOk = false
    · rw [if_pos c12] at h; exact absurd h (by decide)
    rw [if_neg c12] at h
    by_cases c13 : o.verifyOk = false
    · rw [if_pos c13] at h; exact absurd h (by decide)
    exact eq_true_of_ne_false c13

/-- C7: a plain file exposes the buffer verbatim; a firmware variable of
size `N ≥ 4` exposes `(offset 4, N - 4)`; but a firmware variable smaller
than 4 bytes is not rejected — the size_t subtraction wraps, leaving an
absurd `2^64 - 1`-byte region instead of the malformed-source error the
specification requires. -/
theorem C7_usable_region :
    (∀ N, usable_region .DB_FILE N = (0, N)) ∧
    (∀ N, 4 ≤ N → N < 2 ^ 64 → usable_region .DB_EFIVAR N = (4, N - 4)) ∧
    usable_region .DB_EFIVAR 3 = (4, 2 ^ 64 - 1) := by
  refine ⟨fun N => rfl, ?_, by decide⟩
  intro N h4 h64
  simp only [usable_region, Prod.mk.injEq]
  exact ⟨trivial, by omega⟩

/-- Witness: C7's firmware-variable clause applied at N = 7. -/
theorem C7_usable_region_witness :
    ((4 : Nat) ≤ 7 ∧ (7 : Nat) < 2 ^ 64) ∧
    usable_region .DB_EFIVAR 7 = (4, 3) :=
  ⟨⟨by decide, by norm_num⟩, C7_usable_region.2.1 7 (by decide) (by norm_num)⟩

/-- Reading a 32-bit field that sits at the head of the remaining bytes. -/
theorem readU32_u32le (n : Nat) (post : List Nat) :
    readU32 (u32le n ++ post) 0 = n % 2 ^ 32 := by
  have h0 : readU32 (u32le n ++ post) 0 =
      n % 256 % 256 + n / 256 % 256 % 256 * 256 +
        n / 65536 % 256 % 256 * 65536 +
        n / 16777216 % 256 % 256 * 16777216 := rfl
  rw [h0]
  omega

/-- The three header fields of the synthesized region decode to exactly
what the DB_CERT arm stored. -/
theorem buildCert_fields (cert : List Nat) (h32 : cert.length + 44 < 2 ^ 32) :
    groupFields (buildCertRegion cert) 0 =
      ⟨0, cert.length + 44, 0, cert.length + 16⟩ := by
  have h16 : readU32 (buildCertRegion cert) 16 =
      readU32 (u32le (cert.length + 44) ++ (u32le 0 ++
        (u32le (cert.length + 16) ++ (List.replicate 16 0 ++ cert)))) 0 := rfl
  have h20 : readU32 (buildCertRegion cert) 20 =
      readU32 (u32le 0 ++ (u32le (cert.length + 16) ++
        (List.replicate 16 0 ++ cert))) 0 := rfl
  have h24 : readU32 (buildCertRegion cert) 24 =
      readU32 (u32le (cert.length + 16) ++
        (List.replicate 16 0 ++ cert)) 0 := rfl
  unfold groupFields
  rw [show (0 + 16 : Nat) = 16 from rfl, show (0 + 20 : Nat) = 20 from rfl,
    show (0 + 24 : Nat) = 24 from rfl]
  rw [h16, h20, h24, readU32_u32le, readU32_u32le, readU32_u32le]
  have : (cert.length + 16) % 2 ^ 32 = cert.length + 16 := by omega
  rw [this, show (cert.length + 44) % 2 ^ 32 = cert.length + 44 by omega]
  rfl

/-- The synthesized region's total length. -/
theorem buildCert_length (cert : List Nat) :
    (buildCertRegion cert).length = cert.length + 44 := by
  simp [buildCertRegion, u32le, efi_guid_x509, List.length_append]

/-- The one-entry content of the synthesized group. -/
theorem buildCert_entries (cert : List Nat) (h13 : 13 ≤ cert.length)
    (h32 : cert.length + 44 < 2 ^ 32) :
    groupEntries (buildCertRegion cert)
        ⟨0, cert.length + 44, 0, cert.length + 16⟩ =
      [⟨efi_guid_x509, cert, cert.length⟩] := by
  unfold groupEntries
  have hc : groupCount ⟨0, cert.length + 44, 0, cert.length + 16⟩ = 1 := by
    show (cert.length + 44 + 2 ^ 32 - 0) % 2 ^ 32 / (cert.length + 16) = 1
    rw [show (cert.length + 44 + 2 ^ 32 - 0) % 2 ^ 32 = cert.length + 44 by
      omega]
    exact Nat.div_eq_of_lt_le (by omega) (by omega)
  rw [hc, show List.range 1 = [0] from rfl]
  simp only [List.map_cons, List.map_nil]
  unfold entryAt
  have hdata : (buildCertRegion cert).drop
      (0 + sizeofSigList + 0 + 0 * (cert.length + 16) + sizeofGuid) =
      cert := by
    rw [zero_mul]
    show (buildCertRegion cert).drop 44 = cert
    rfl
  rw [hdata]
  have hlen : cSubLen (cert.length + 16) = cert.length := by
    unfold cSubLen sizeofGuid
    omega
  rw [hlen]
  rfl

/-- C8 (amended): wrapping a raw certificate of length `L ≥ 13` gives a
region of `L + header + GUID` bytes whose single group carries the X.509
tag, header-skip 0, entry size `L + 16`, total size the whole region, and
whose walk yields exactly one entry with the original certificate bytes as
payload; for `L ≤ 12` the walker's count formula yields more than one
entry. -/
theorem C8_cert_wrap (cert : List Nat) (h13 : 13 ≤ cert.length)
    (h32 : cert.length + 44 < 2 ^ 32) :
    (buildCertRegion cert).length =
      cert.length + sizeofSigList + sizeofGuid ∧
    groupFields (buildCertRegion cert) 0 =
      ⟨0, cert.length + 44, 0, cert.length + 16⟩ ∧
    ((buildCertRegion cert).drop 0).take sizeofGuid = efi_guid_x509 ∧
    walkFrom (buildCertRegion cert) (buildCertRegion cert).length 0
        (buildCertRegion cert).length =
      .ok [⟨efi_guid_x509, cert, cert.length⟩] := by
  have hflds := buildCert_fields cert h32
  have hlen := buildCert_length cert
  have hwf : wfFrom (buildCertRegion cert)
      [⟨0, cert.length + 44, 0, cert.length + 16⟩] 0 (cert.length + 44) =
      true := by
    simp only [wfFrom, Bool.and_eq_true, decide_eq_true_eq, and_assoc]
    refine ⟨hflds.symm, by omega, ?_, ?_, ?_, ?_, ?_⟩
    · show cert.length + 44 ≤ cert.length + 44
      omega
    · show sizeofSigList ≤ cert.length + 44
      unfold sizeofSigList
      omega
    · show 0 < cert.length + 16
      omega
    · show (0 : Nat) ≤ cert.length + 44
      omega
    · rw [show cert.length + 44 -
        (⟨0, cert.length + 44, 0, cert.length + 16⟩ : GroupView).listSize =
          0 from by
          show cert.length + 44 - (cert.length + 44) = 0
          omega]
      simp [wfFrom]
  have hw := walkFrom_wf (buildCertRegion cert)
    [⟨0, cert.length + 44, 0, cert.length + 16⟩] 0 (cert.length + 44)
    (cert.length + 44) hwf (by simp only [List.length_singleton]; omega)
  refine ⟨by rw [hlen]; unfold sizeofSigList sizeofGuid; omega, hflds, rfl, ?_⟩
  rw [hlen, hw]
  rw [show ([⟨0, cert.length + 44, 0, cert.length + 16⟩] :
      List GroupView).flatMap (groupEntries (buildCertRegion cert)) =
    groupEntries (buildCertRegion cert)
      ⟨0, cert.length + 44, 0, cert.length + 16⟩ ++ [] from rfl]
  rw [List.append_nil, buildCert_entries cert h13 h32]

/-- Witness: C8 applied to a concrete 16-byte certificate. -/
theorem C8_cert_wrap_witness :
    ((13 : Nat) ≤ (List.replicate 16 9 : List Nat).length ∧
      (List.replicate 16 9 : List Nat).length + 44 < 2 ^ 32) ∧
    ((buildCertRegion (List.replicate 16 9)).length =
      (List.replicate 16 9 : List Nat).length + sizeofSigList + sizeofGuid ∧
    groupFields (buildCertRegion (List.replicate 16 9)) 0 =
      ⟨0, (List.replicate 16 9 : List Nat).length + 44, 0,
        (List.replicate 16 9 : List Nat).length + 16⟩ ∧
    ((buildCertRegion (List.replicate 16 9)).drop 0).take sizeofGuid =
      efi_guid_x509 ∧
    walkFrom (buildCertRegion (List.replicate 16 9))
        (buildCertRegion (List.replicate 16 9)).length 0
        (buildCertRegion (List.replicate 16 9)).length =
      .ok [⟨efi_guid_x509, List.replicate 16 9,
        (List.replicate 16 9 : List Nat).length⟩]) :=
  ⟨⟨by decide, by norm_num⟩,
   C8_cert_wrap (List.replicate 16 9) (by decide) (by norm_num)⟩

/-- C8 counterexample: for a 12-byte certificate the synthesized group's
count formula gives `56 / 28 = 2`, so the walk yields two entries, not
exactly one. -/
theorem C8_not_single_entry_below_13 :
    (entriesOf (walkFrom (buildCertRegion (List.replicate 12 3)) 1 0
      (buildCertRegion (List.replicate 12 3)).length)).length = 2 := by
  decide

/-- C9: disabled bootstrap touches nothing; enabled bootstrap loads db and
MokListRT into the allow chain and dbx and MokListXRT into the deny chain,
tolerates ENOENT, dies naming the first path whose load fails otherwise,
and warns — independently per chain — exactly when a chain is empty after
its two loads were attempted. -/
theorem C9_init_cert_db (o1 o2 o3 o4 : LoadOutcome) (db0 dbx0 : List String) :
    (init_cert_db false o1 o2 o3 o4 db0 dbx0 = ⟨db0, dbx0, false, false, none⟩) ∧
    (o1 ≠ .fail → o2 ≠ .fail → o3 ≠ .fail → o4 ≠ .fail →
      init_cert_db true o1 o2 o3 o4 db0 dbx0 =
        ⟨applyLoad MOK_PATH o2 (applyLoad DB_PATH o1 db0),
         applyLoad MOKX_PATH o4 (applyLoad DBX_PATH o3 dbx0),
         (applyLoad MOK_PATH o2 (applyLoad DB_PATH o1 db0)).isEmpty,
         (applyLoad MOKX_PATH o4 (applyLoad DBX_PATH o3 dbx0)).isEmpty,
         none⟩) ∧
    (o1 = .fail →
      (init_cert_db true o1 o2 o3 o4 db0 dbx0).fatal = some DB_PATH ∧
      (init_cert_db true o1 o2 o3 o4 db0 dbx0).dbChain = db0 ∧
      (init_cert_db true o1 o2 o3 o4 db0 dbx0).dbxChain = dbx0) ∧
    (o1 ≠ .fail → o2 = .fail →
      (init_cert_db true o1 o2 o3 o4 db0 dbx0).fatal = some MOK_PATH) ∧
    (o1 ≠ .fail → o2 ≠ .fail → o3 = .fail →
      (init_cert_db true o1 o2 o3 o4 db0 dbx0).fatal = some DBX_PATH) ∧
    (o1 ≠ .fail → o2 ≠ .fail → o3 ≠ .fail → o4 = .fail →
      (init_cert_db true o1 o2 o3 o4 db0 dbx0).fatal = some MOKX_PATH) := by
  refine ⟨rfl, ?_, ?_, ?_, ?_, ?_⟩
  · intro h1 h2 h3 h4
    rw [init_cert_db, if_neg (by simp), if_neg h1, if_neg h2, if_neg h3,
      if_neg h4]
  · intro h1
    rw [init_cert_db, if_neg (by simp), if_pos h1]
    exact ⟨rfl, rfl, rfl⟩
  · intro h1 h2
    rw [init_cert_db, if_neg (by simp), if_neg h1, if_pos h2]
  · intro h1 h2 h3
    rw [init_cert_db, if_neg (by simp), if_neg h1, if_neg h2, if_pos h3]
  · intro h1 h2 h3 h4
    rw [init_cert_db, if_neg (by simp), if_neg h1, if_neg h2, if_neg h3,
      if_pos h4]

/-- Witness: C9 applied to a run where db loads, MokListRT is absent and
both deny-chain sources are absent, starting from empty chains. -/
theorem C9_init_cert_db_witness :
    (init_cert_db false .ok .enoent .enoent .enoent [] [] =
      ⟨[], [], false, false, none⟩) ∧
    (LoadOutcome.ok ≠ .fail → LoadOutcome.enoent ≠ .fail →
      LoadOutcome.enoent ≠ .fail → LoadOutcome.enoent ≠ .fail →
      init_cert_db true .ok .enoent .enoent .enoent [] [] =
        ⟨applyLoad MOK_PATH .enoent (applyLoad DB_PATH .ok []),
         applyLoad MOKX_PATH .enoent (applyLoad DBX_PATH .enoent []),
         (applyLoad MOK_PATH .enoent (applyLoad DB_PATH .ok [])).isEmpty,
         (applyLoad MOKX_PATH .enoent (applyLoad DBX_PATH .enoent [])).isEmpty,
         none⟩) ∧
    (LoadOutcome.ok = .fail →
      (init_cert_db true .ok .enoent .enoent .enoent [] []).fatal =
        some DB_PATH ∧
      (init_cert_db true .ok .enoent .enoent .enoent [] []).dbChain = [] ∧
      (init_cert_db true .ok .enoent .enoent .enoent [] []).dbxChain = []) ∧
    (LoadOutcome.ok ≠ .fail → LoadOutcome.enoent = .fail →
      (init_cert_db true .ok .enoent .enoent .enoent [] []).fatal =
        some MOK_PATH) ∧
    (LoadOutcome.ok ≠ .fail → LoadOutcome.enoent ≠ .fail →
      LoadOutcome.enoent = .fail →
      (init_cert_db true .ok .enoent .enoent .enoent [] []).fatal =
        some DBX_PATH) ∧
    (LoadOutcome.ok ≠ .fail → LoadOutcome.enoent ≠ .fail →
      LoadOutcome.enoent ≠ .fail → LoadOutcome.enoent = .fail →
      (init_cert_db true .ok .enoent .enoent .enoent [] []).fatal =
        some MOKX_PATH) :=
  C9_init_cert_db .ok .enoent .enoent .enoent [] []

/-- C10: add_db_file either succeeds — every fallible step went through,
it returns 0 and the only context change is the new head of the selected
chain — or it fails, returns -1 and leaves both chains untouched. -/
theorem C10_add_db_file_atomic (o : FsOracle) (which : db_specifier)
    (dbfile : String) (type : db_f_type) (ctx : dblists String) :
    (allStepsOk o type ∧
      add_db_file o which dbfile type ctx = (0, linkSource which dbfile ctx)) ∨
    (¬allStepsOk o type ∧ add_db_file o which dbfile type ctx = (-1, ctx)) := by
  unfold add_db_file allStepsOk
  split_ifs with h1 h2 h3 h4 h5 h6 h7
  · exact Or.inr ⟨by simp [h1], rfl⟩
  · exact Or.inr ⟨by simp [h2], rfl⟩
  · exact Or.inr ⟨by simp [h3], rfl⟩
  · exact Or.inr ⟨by simp [h4], rfl⟩
  · exact Or.inr ⟨by simp [h5], rfl⟩
  · exact Or.inr ⟨by simp [h6.1, h6.2], rfl⟩
  · refine Or.inr ⟨?_, rfl⟩
    intro hall
    exact absurd (hall.2.2.2.2.2.2 h7.1) (by simp [h7.2])
  · refine Or.inl ⟨?_, rfl⟩
    refine ⟨by simpa using h1, by simpa using h2, by simpa using h3,
      by simpa using h4, by simpa using h5, ?_, ?_⟩
    · rcases Bool.eq_false_or_eq_true o.mmapOk with hm | hm
      · exact Or.inl hm
      · right
        rcases Bool.eq_false_or_eq_true o.readOk with hr | hr
        · exact hr
        · exact absurd ⟨hm, hr⟩ h6
    · intro htype
      rcases Bool.eq_false_or_eq_true o.callocDataOk with hc | hc
      · exact hc
      · exact absurd ⟨htype, hc⟩ h7

end Certdb
